import Mathlib

set_option autoImplicit false

/-!
Verification development for the `@bigmistqke/rpc` library: a shallow
embedding of its RPC correlation and dispatch engine (messenger.ts,
core.ts, websocket/index.ts, handle.ts) together with proofs of the
specification's claims about it.

JavaScript values are modelled by the mutual inductive `Value` below;
machine details that the claims do not touch (prototype chains, numeric
float semantics, getters) are out of scope.  Exposed functions are
defunctionalised into `FnBody`, covering exactly the behaviours the
exposed-method claims exercise: returning a constant, reading a property
of `this`, returning the argument array, throwing synchronously, and
returning a resolving or rejecting promise.
-/

/-! ## Decimal string conversion

The source mints namespace ids with a template literal
`` `${HANDLE_NAMESPACE_PREFIX}${handleNamespaceCounter++}` ``; the
number-to-string coercion is decimal.  We model it with a fuel-based
structural recursion so that concrete instances compute by `decide`. -/

/-- One decimal digit to its character, `d ↦ '0' + d`. -/
def decChar (d : Nat) : Char := Char.ofNat (48 + d)

/-- Little-endian decimal digits of `n` (empty for `n = 0`), with fuel. -/
def natDigitsRev : Nat → Nat → List Nat
  | 0, _ => []
  | fuel + 1, n => if n = 0 then [] else n % 10 :: natDigitsRev fuel (n / 10)

/-- Decimal string of a natural number, as JavaScript number-to-string
coercion produces for integral values. -/
def natToString (n : Nat) : String :=
  if n = 0 then "0" else ⟨((natDigitsRev n n).reverse.map decChar)⟩

/-- Value of a little-endian digit list. -/
def digitsVal : List Nat → Nat
  | [] => 0
  | d :: ds => d + 10 * digitsVal ds

theorem digitsVal_natDigitsRev (fuel n : Nat) (h : n ≤ fuel) :
    digitsVal (natDigitsRev fuel n) = n := by
  induction fuel generalizing n with
  | zero => interval_cases n; simp [natDigitsRev, digitsVal]
  | succ fuel ih =>
    by_cases hn : n = 0
    · simp [natDigitsRev, hn, digitsVal]
    · have hdiv : n / 10 ≤ fuel := by
        have : n / 10 < n := Nat.div_lt_self (Nat.pos_of_ne_zero hn) (by omega)
        omega
      simp only [natDigitsRev, hn, if_false, digitsVal, ih (n / 10) hdiv]
      omega

theorem natDigitsRev_lt (fuel n : Nat) : ∀ d ∈ natDigitsRev fuel n, d < 10 := by
  induction fuel generalizing n with
  | zero => simp [natDigitsRev]
  | succ fuel ih =>
    by_cases hn : n = 0
    · simp [natDigitsRev, hn]
    · simp only [natDigitsRev, hn, if_false, List.mem_cons]
      rintro d (rfl | hd)
      · exact Nat.mod_lt _ (by omega)
      · exact ih _ d hd

theorem decChar_inj {d₁ d₂ : Nat} (h₁ : d₁ < 10) (h₂ : d₂ < 10)
    (h : decChar d₁ = decChar d₂) : d₁ = d₂ := by
  interval_cases d₁ <;> interval_cases d₂ <;> revert h <;> decide

theorem map_decChar_inj {l₁ l₂ : List Nat} (h₁ : ∀ d ∈ l₁, d < 10)
    (h₂ : ∀ d ∈ l₂, d < 10) (h : l₁.map decChar = l₂.map decChar) : l₁ = l₂ := by
  induction l₁ generalizing l₂ with
  | nil => cases l₂ <;> simp_all
  | cons a l ih =>
    cases l₂ with
    | nil => simp_all
    | cons b l' =>
      simp only [List.map_cons, List.cons.injEq] at h
      have ha : a = b := decChar_inj (h₁ a (by simp)) (h₂ b (by simp)) h.1
      have : l = l' := ih (fun d hd => h₁ d (by simp [hd])) (fun d hd => h₂ d (by simp [hd])) h.2
      simp [ha, this]

theorem natToString_injective {m n : Nat} (h : natToString m = natToString n) : m = n := by
  by_cases hm : m = 0 <;> by_cases hn : n = 0
  · omega
  · exfalso
    simp only [natToString, hm, if_true, hn, if_false] at h
    have hdata : ('0' :: []) = ((natDigitsRev n n).reverse.map decChar) :=
      congrArg String.data h
    have hd : (natDigitsRev n n).reverse = [0] := by
      have hlt : ∀ d ∈ (natDigitsRev n n).reverse, d < 10 := by
        intro d hd
        exact natDigitsRev_lt n n d (List.mem_reverse.mp hd)
      have heq : ((natDigitsRev n n).reverse.map decChar) = ([0] : List Nat).map decChar := by
        rw [show ([0] : List Nat).map decChar = ['0'] from by decide]
        exact hdata.symm
      exact map_decChar_inj hlt (by decide) heq
    have hrev : natDigitsRev n n = [0] := by
      have := congrArg List.reverse hd
      simpa using this
    have hval := digitsVal_natDigitsRev n n (le_refl n)
    rw [hrev] at hval
    simp [digitsVal] at hval
    exact hn hval.symm
  · exfalso
    simp only [natToString, hm, if_false, hn, if_true] at h
    have hdata : ((natDigitsRev m m).reverse.map decChar) = ('0' :: []) :=
      congrArg String.data h
    have hd : (natDigitsRev m m).reverse = [0] := by
      have hlt : ∀ d ∈ (natDigitsRev m m).reverse, d < 10 := by
        intro d hd
        exact natDigitsRev_lt m m d (List.mem_reverse.mp hd)
      have heq : ((natDigitsRev m m).reverse.map decChar) = ([0] : List Nat).map decChar := by
        rw [show ([0] : List Nat).map decChar = ['0'] from by decide]
        exact hdata
      exact map_decChar_inj hlt (by decide) heq
    have hrev : natDigitsRev m m = [0] := by
      have := congrArg List.reverse hd
      simpa using this
    have := digitsVal_natDigitsRev m m (le_refl m)
    rw [hrev] at this
    simp [digitsVal] at this
    omega
  · simp only [natToString, hm, if_false, hn, if_false] at h
    have hdata := congrArg String.data h
    simp only at hdata
    have hrev : (natDigitsRev m m).reverse = (natDigitsRev n n).reverse :=
      map_decChar_inj
        (fun d hd => natDigitsRev_lt m m d (List.mem_reverse.mp hd))
        (fun d hd => natDigitsRev_lt n n d (List.mem_reverse.mp hd)) hdata
    have : natDigitsRev m m = natDigitsRev n n := by
      have := congrArg List.reverse hrev
      simpa using this
    have hm' := digitsVal_natDigitsRev m m (le_refl m)
    have hn' := digitsVal_natDigitsRev n n (le_refl n)
    rw [this] at hm'
    omega

/-! ## String helpers

`strStartsWith` models JavaScript `String.prototype.startsWith` (used by
the dispatcher to detect namespace-scoped topic paths) at the character
level, and `joinComma` models `topics.join(',')`. -/

/-- Character-level prefix test: does `s` start with `p`? -/
def charsStartWith : List Char → List Char → Bool
  | _, [] => true
  | [], _ :: _ => false
  | c :: cs, p :: ps => c == p && charsStartWith cs ps

/-- Model of `s.startsWith(p)`. -/
def strStartsWith (s p : String) : Bool := charsStartWith s.data p.data

theorem charsStartWith_append (p s : List Char) : charsStartWith (p ++ s) p = true := by
  induction p with
  | nil => cases s <;> rfl
  | cons c cs ih => simp [charsStartWith, ih]

theorem strStartsWith_append (p s : String) : strStartsWith (p ++ s) p = true := by
  have : (p ++ s).data = p.data ++ s.data := String.data_append p s
  rw [strStartsWith, this, charsStartWith_append]

/-- Model of `topics.join(',')`. -/
def joinComma : List String → String
  | [] => ""
  | [s] => s
  | s :: rest => s ++ "," ++ joinComma rest

/-- Modelled from the spec: the wire key of the remote-reference-handle
payload (`{ kind: "remote-handle", namespaceId }`, §6).  The concrete
`$MESSENGER_HANDLE` constant lives in the protocol module, which is not
among the provided sources; it is a string key (handle payloads survive
the JSON round trip of the websocket transport in the repository's
tests), and only its identity matters here. -/
def MESSENGER_HANDLE_KEY : String := "RPC-MESSENGER-HANDLE"

/-! ## JavaScript values

Mutual inductive so that every function on values is plain structural
recursion (hence computable by `decide` in witnesses).

* `varr`/`vobj` carry a `transferred` flag: the model of the own-property
  `$TRANSFER = 'RPC-TRANSFER'` mark set by `transfer()`; `vother` models a
  class-like instance (its `constructor` is not `Object`), which can also
  carry the mark.
* `vhandleMarker m` models the plain object `{ [$HANDLE_MARKER]: true,
  methods: m }` produced by `handle()`; `$HANDLE_MARKER` is a `Symbol`,
  so when such an object is rebuilt field-wise by a `for...in` walk only
  the string key `"methods"` survives.
* `vhandleResponse ns` models `HandleResponseShape.create(ns)`, the plain
  object `{ [$MESSENGER_HANDLE]: ns }` whose key is a string constant
  (it survives JSON serialisation in the websocket transport).
* `verr msg` models an `Error` instance (a class instance).
* `vfun b` models a function whose behaviour is `b`.
-/

mutual

inductive Value where
  | vundef : Value
  | vnull : Value
  | vbool : Bool → Value
  | vnum : Int → Value
  | vstr : String → Value
  | varr : Bool → ValueList → Value
  | vobj : Bool → FieldList → Value
  | vfun : FnBody → Value
  | vhandleMarker : Value → Value
  | vhandleResponse : String → Value
  | verr : String → Value
  | vother : Bool → Nat → Value

inductive ValueList where
  | nil : ValueList
  | cons : Value → ValueList → ValueList

inductive FieldList where
  | fnil : FieldList
  | fcons : String → Value → FieldList → FieldList

inductive FnBody where
  | ret : Value → FnBody
  | retThisProp : String → FnBody
  | retArgsArr : FnBody
  | throwV : Value → FnBody
  | retPromise : Bool → Value → FnBody

end

/-- Field lookup in a plain object, `undefined` when absent (JS property
access `obj[key]`). -/
def lookupFieldList : FieldList → String → Value
  | .fnil, _ => .vundef
  | .fcons k v tl, key => if k = key then v else lookupFieldList tl key

/-- Model of the optional-chained property access `acc?.[topic]` used by
`callMethod`'s reduce: a string property lookup.  Plain objects look up
their fields; the `methods` field of a handle marker is string-addressable;
a handle response exposes its single string-keyed field; everything else
(primitives, arrays, functions, class instances) yields `undefined` for
the method-name keys the dispatcher uses. -/
def getProp : Value → String → Value
  | .vobj _ fs, key => lookupFieldList fs key
  | .vhandleMarker m, key => if key = "methods" then m else .vundef
  | .vhandleResponse ns, key => if key = MESSENGER_HANDLE_KEY then .vstr ns else .vundef
  | _, _ => .vundef

deriving instance DecidableEq for Value
deriving instance DecidableEq for ValueList
deriving instance DecidableEq for FieldList
deriving instance DecidableEq for FnBody

/-! ## Call dispatcher (`callMethod`, core.ts)

A call's outcome distinguishes a synchronous return, a synchronous
throw, and a returned promise that resolves or rejects — the dispatch
boundaries in messenger.ts and part_000 treat these differently. -/

inductive CallOutcome where
  | sync : Value → CallOutcome
  | promiseOk : Value → CallOutcome
  | promiseErr : Value → CallOutcome
  | exn : Value → CallOutcome
deriving DecidableEq

/-- Behaviour of an invoked function body, given `this` and the argument
list (`method.call(methods, ...args)`). -/
def evalFn (b : FnBody) (thisV : Value) (args : ValueList) : CallOutcome :=
  match b with
  | .ret v => .sync v
  | .retThisProp k => .sync (getProp thisV k)
  | .retArgsArr => .sync (.varr false args)
  | .throwV e => .exn e
  | .retPromise false v => .promiseOk v
  | .retPromise true e => .promiseErr e

/-- The reduce in `callMethod`: successive optional-chained property
lookups starting at `methods`. -/
def resolveTopics (methods : Value) (topics : List String) : Value :=
  topics.foldl (fun acc topic => getProp acc topic) methods

/-- Embedding of `callMethod(methods, topics, args)` (core.ts lines
27–36): walk the topic path, then either invoke the resolved function
with `this` bound to `methods` and the args applied positionally, or
throw the unresolvable-topic-path `Error`. -/
def callMethod (methods : Value) (topics : List String) (args : ValueList) : CallOutcome :=
  match resolveTopics methods topics with
  | .vfun b => evalFn b methods args
  | _ => .exn (.verr ("Topics did not resolve to a function: [" ++ joinComma topics ++ "]"))

/-- Spec reading of the invocation, for comparison with `callMethod`:
the claim states the callable is invoked with `this` bound to its
immediate parent container, the object reached after walking all but the
last path segment. -/
def callMethodParentBoundSpec (methods : Value) (topics : List String) (args : ValueList) :
    CallOutcome :=
  match resolveTopics methods topics with
  | .vfun b => evalFn b (resolveTopics methods (topics.dropLast)) args
  | _ => .exn (.verr ("Topics did not resolve to a function: [" ++ joinComma topics ++ "]"))

/-! ## Transferable marking and extraction (messenger.ts) -/

/-- Embedding of `isTransferred`: truthy object with the `$TRANSFER` own
property.  In the model the mark is the boolean carried by arrays, plain
objects and class-like instances. -/
def isTransferredVal : Value → Bool
  | .varr t _ => t
  | .vobj t _ => t
  | .vother t _ => t
  | _ => false

mutual

/-- Embedding of `processValue` inside `extractTransferables`
(messenger.ts lines 87–103).  Returns the rebuilt value and the list of
marked values encountered, in traversal order: a marked value is
collected and returned in place without recursing; arrays are rebuilt
element-wise; plain objects are rebuilt field-wise over their
enumerable string keys (so the `Symbol`-keyed handle marker key would be
dropped, while the string-keyed handle response key survives); every
other value passes through unexamined. -/
def processValue : Value → Value × List Value
  | .varr true es => (.varr true es, [.varr true es])
  | .vobj true fs => (.vobj true fs, [.vobj true fs])
  | .vother true tag => (.vother true tag, [.vother true tag])
  | .varr false es =>
      let r := processElems es
      (.varr false r.1, r.2)
  | .vobj false fs =>
      let r := processFields fs
      (.vobj false r.1, r.2)
  | .vhandleMarker m =>
      let r := processValue m
      (.vobj false (.fcons "methods" r.1 .fnil), r.2)
  | v => (v, [])

def processElems : ValueList → ValueList × List Value
  | .nil => (.nil, [])
  | .cons v tl =>
      let rv := processValue v
      let rt := processElems tl
      (.cons rv.1 rt.1, rv.2 ++ rt.2)

def processFields : FieldList → FieldList × List Value
  | .fnil => (.fnil, [])
  | .fcons k v tl =>
      let rv := processValue v
      let rt := processFields tl
      (.fcons k rv.1 rt.1, rv.2 ++ rt.2)

end

/-- Embedding of `extractTransferables(args)`: process each argument and
return the rebuilt argument list and the collected transferables. -/
def extractTransferables (args : ValueList) : ValueList × List Value :=
  processElems args

mutual

/-- Does a value contain no transfer marks reachable through the plain
containers the extractor traverses? -/
def noMarks : Value → Bool
  | .varr t es => !t && noMarksElems es
  | .vobj t fs => !t && noMarksFields fs
  | .vother t _ => !t
  | .vhandleMarker m => noMarks m
  | _ => true

/-- Elementwise `noMarks`. -/
def noMarksElems : ValueList → Bool
  | .nil => true
  | .cons v tl => noMarks v && noMarksElems tl

/-- Fieldwise `noMarks`. -/
def noMarksFields : FieldList → Bool
  | .fnil => true
  | .fcons _ v tl => noMarks v && noMarksFields tl

end

mutual

/-- Does a value contain no handle marker reachable through the plain
containers the extractor traverses?  Handle markers are produced only
inside an exposed method (`RemoteReferenceMarker` is never constructible
by a caller) and are converted to handle responses before extraction, so
extractor inputs in the program satisfy this. -/
def markerFree : Value → Bool
  | .vhandleMarker _ => false
  | .varr _ es => markerFreeElems es
  | .vobj _ fs => markerFreeFields fs
  | _ => true

/-- Elementwise `markerFree`. -/
def markerFreeElems : ValueList → Bool
  | .nil => true
  | .cons v tl => markerFree v && markerFreeElems tl

/-- Fieldwise `markerFree`. -/
def markerFreeFields : FieldList → Bool
  | .fnil => true
  | .fcons _ v tl => markerFree v && markerFreeFields tl

end

/-! ## Envelopes and payloads

Modelled from the spec (§4.1, §6): the protocol module
(message-protocol.ts / protocol.ts) is not among the provided sources.
The three envelope kinds are discriminated by mutually exclusive marker
fields and the RPC-call payload by an explicit kind marker, so an
inductive with one constructor per shape is the faithful model; the
`validate` functions become constructor matches. -/

inductive Payload where
  | rpc : List String → ValueList → Payload
  | raw : Value → Payload
deriving DecidableEq

inductive Envelope where
  | request : Nat → Payload → Envelope
  | response : Nat → Value → Envelope
  | error : Nat → Value → Envelope
deriving DecidableEq

/-! ## Namespace id minting

`handle.ts` (part_001) holds a module-wide counter used by the websocket
transport and core.ts; `messenger.ts` holds its own separate module-wide
counter (line 238).  Both build ids as `HANDLE_NAMESPACE_PREFIX +
counter++` with the same prefix constant `'__rpc_handle_'`.  The counter
argument threads the module-global state. -/

/-- The `HANDLE_NAMESPACE_PREFIX` constant, `'__rpc_handle_'`. -/
def HANDLE_NAMESPACE_PREF : String := "__rpc_handle_"

/-- Embedding of `nextHandleNamespaceId()` from handle.ts (part_001
lines 46–48): mint an id from the module counter and increment it. -/
def nextHandleNamespaceId (counter : Nat) : String × Nat :=
  (HANDLE_NAMESPACE_PREF ++ natToString counter, counter + 1)

/-- Embedding of the inline mint in messenger.ts's `processResult`
(line 280): `` `${HANDLE_NAMESPACE_PREFIX}${handleNamespaceCounter++}` ``
over messenger.ts's own module counter. -/
def messengerMintNamespaceId (counter : Nat) : String × Nat :=
  (HANDLE_NAMESPACE_PREF ++ natToString counter, counter + 1)

/-- Initial value of messenger.ts's module counter
(`let handleNamespaceCounter = 0`). -/
def messengerCounterInit : Nat := 0

/-- Initial value of handle.ts's module counter
(`export let handleNamespaceCounter = 0`). -/
def handleCounterInit : Nat := 0

/-! ## Exposing endpoints -/

/-- State visible to one exposing endpoint: the module-wide namespace
counter and the endpoint's `namespaceHandlers` map (newest first; `set`
prepends, and lookup takes the most recent binding, matching overwrite
semantics of `Map.set`). -/
structure ExposeState where
  counter : Nat
  handlers : List (String × Value)
deriving DecidableEq

/-- Lookup in `namespaceHandlers` (`Map.get`). -/
def lookupHandler : List (String × Value) → String → Option Value
  | [], _ => none
  | (k, v) :: tl, key => if k = key then some v else lookupHandler tl key

/-- Embedding of messenger.ts's `processResult` (lines 278–285): a
handle-marker result mints a fresh namespace id, registers the wrapped
methods, and is replaced by a handle-response payload; any other result
passes through. -/
def processResultMessenger (st : ExposeState) (result : Value) : Value × ExposeState :=
  match result with
  | .vhandleMarker m =>
      let mint := messengerMintNamespaceId st.counter
      (.vhandleResponse mint.1, ⟨mint.2, (mint.1, m) :: st.handlers⟩)
  | v => (v, st)

/-- Embedding of `processResult` in websocket/index.ts (lines 97–104)
and core.ts (lines 57–64), which mint through handle.ts's
`nextHandleNamespaceId`. -/
def processResultHandle (st : ExposeState) (result : Value) : Value × ExposeState :=
  match result with
  | .vhandleMarker m =>
      let mint := nextHandleNamespaceId st.counter
      (.vhandleResponse mint.1, ⟨mint.2, (mint.1, m) :: st.handlers⟩)
  | v => (v, st)

/-- The topic-path routing and invocation shared by the expose message
handlers (messenger.ts lines 295–320, websocket/index.ts lines 112–128):
a first topic carrying the namespace prefix is looked up in
`namespaceHandlers` (an absent id throws `Unknown namespace`), and the
call proceeds against the handler with the first topic dropped;
otherwise the call proceeds against the root methods with the full
path. -/
def dispatchCall (methods : Value) (st : ExposeState) (topics : List String)
    (args : ValueList) : CallOutcome :=
  match topics with
  | t0 :: rest =>
      if strStartsWith t0 HANDLE_NAMESPACE_PREF then
        match lookupHandler st.handlers t0 with
        | none => .exn (.verr ("Unknown namespace: " ++ t0))
        | some handler => callMethod handler rest args
      else callMethod methods topics args
  | [] => callMethod methods [] args

/-- Embedding of the messenger.ts `expose` message handler (lines
287–329) on a message that validated as a Request: an RPC payload is
dispatched (`await` collapses a returned promise), the result is
post-processed for handle markers, transferables are extracted, and a
Response envelope is posted; a throw or rejection anywhere in the `try`
is caught and posted as an Error envelope with the request's id; a
payload that is not an RPC payload falls through the `try` and nothing
is posted. -/
def exposeHandle (methods : Value) (st : ExposeState) (id : Nat) (payload : Payload) :
    ExposeState × Option Envelope :=
  match payload with
  | .raw _ => (st, none)
  | .rpc topics args =>
      match dispatchCall methods st topics args with
      | .sync v =>
          let pr := processResultMessenger st v
          (pr.2, some (.response id (processValue pr.1).1))
      | .promiseOk v =>
          let pr := processResultMessenger st v
          (pr.2, some (.response id (processValue pr.1).1))
      | .promiseErr e => (st, some (.error id e))
      | .exn e => (st, some (.error id e))

/-- Embedding of the websocket `expose` message handler
(websocket/index.ts lines 106–138) after JSON decoding, on a message
that validated as a Request.  The websocket responder does not extract
transferables; the processed result is serialised as the Response
payload directly. -/
def wsExposeHandle (methods : Value) (st : ExposeState) (id : Nat) (payload : Payload) :
    ExposeState × Option Envelope :=
  match payload with
  | .raw _ => (st, none)
  | .rpc topics args =>
      match dispatchCall methods st topics args with
      | .sync v =>
          let pr := processResultHandle st v
          (pr.2, some (.response id pr.1))
      | .promiseOk v =>
          let pr := processResultHandle st v
          (pr.2, some (.response id pr.1))
      | .promiseErr e => (st, some (.error id e))
      | .exn e => (st, some (.error id e))

/-- Embedding of part_000's `expose` (lines 196–214) composed with its
`createResponder` (lines 147–181) on a validated Request.  The expose
callback catches a synchronous `callMethod` throw itself, logs it with
`console.error`, and returns `undefined`, so `createResponder`'s
`await callback(data)` succeeds and a Response envelope with an
`undefined` payload is posted; only a rejected promise escapes to
`createResponder`'s catch and becomes an Error envelope.  A payload that
is not an RPC payload also makes the callback return `undefined`, which
is answered with a Response envelope. -/
def part000ExposeHandle (methods : Value) (id : Nat) (payload : Payload) : Envelope :=
  match payload with
  | .raw _ => .response id (processValue .vundef).1
  | .rpc topics args =>
      match callMethod methods topics args with
      | .sync v => .response id (processValue v).1
      | .promiseOk v => .response id (processValue v).1
      | .promiseErr e => .error id e
      | .exn _ => .response id (processValue .vundef).1

/-! ## Pending call registry and requester

Modelled from the spec (§4.2): `createIdRegistry` lives in utils.ts,
which is not among the provided sources.  `register(onSuccess,
onFailure) -> id` allocates the next unused id from a monotonically
increasing counter scoped to the registry instance and stores the entry;
`free(id) -> PendingCall | absent` removes and returns the entry if
present and signals absence otherwise.  Entries are kept as an
association list keyed by id. -/

structure IdRegistry (α : Type) where
  nextId : Nat
  entries : List (Nat × α)
deriving DecidableEq

/-- Lookup of a pending entry by id. -/
def lookupId {α : Type} : List (Nat × α) → Nat → Option α
  | [], _ => none
  | (k, v) :: tl, id => if k = id then some v else lookupId tl id

/-- Removal of a pending entry by id. -/
def removeId {α : Type} : List (Nat × α) → Nat → List (Nat × α)
  | [], _ => []
  | (k, v) :: tl, id => if k = id then removeId tl id else (k, v) :: removeId tl id

/-- The empty registry a requester starts with. -/
def IdRegistry.empty {α : Type} : IdRegistry α := ⟨0, []⟩

/-- Modelled from the spec: `register` stores the entry under the next
counter value and returns that id. -/
def IdRegistry.register {α : Type} (r : IdRegistry α) (v : α) : Nat × IdRegistry α :=
  (r.nextId, ⟨r.nextId + 1, (r.nextId, v) :: r.entries⟩)

/-- Modelled from the spec: `free` removes and returns the entry when
present, and signals absence (leaving the registry unchanged) otherwise. -/
def IdRegistry.free {α : Type} (r : IdRegistry α) (id : Nat) : Option α × IdRegistry α :=
  match lookupId r.entries id with
  | some v => (some v, ⟨r.nextId, removeId r.entries id⟩)
  | none => (none, r)

/-- An incoming message as the requester's listener discriminates it
(messenger.ts lines 166–177): an Error envelope, a Response envelope, or
anything else.  `α` is the pending entry (the `{resolve, reject}` pair,
identified abstractly); `β` the payload type. -/
inductive InMsg (β : Type) where
  | errorMsg : Nat → β → InMsg β
  | responseMsg : Nat → β → InMsg β
  | otherMsg : InMsg β
deriving DecidableEq

/-- A settlement performed by the requester's listener: the pending
entry it freed and the value it passed to `resolve` or `reject`. -/
inductive SettleEvent (α β : Type) where
  | resolved : α → β → SettleEvent α β
  | rejected : α → β → SettleEvent α β
deriving DecidableEq

/-- Embedding of the requester's message listener (messenger.ts lines
166–177, websocket/index.ts lines 49–61): an Error envelope frees its id
and rejects the freed entry with the carried error; a Response envelope
frees its id and resolves the freed entry with the carried payload; the
optional chain on an absent entry does nothing; any other message is
ignored. -/
def processMessage {α β : Type} (reg : IdRegistry α) (m : InMsg β) :
    IdRegistry α × Option (SettleEvent α β) :=
  match m with
  | .errorMsg id e =>
      match reg.free id with
      | (some p, reg') => (reg', some (.rejected p e))
      | (none, reg') => (reg', none)
  | .responseMsg id v =>
      match reg.free id with
      | (some p, reg') => (reg', some (.resolved p v))
      | (none, reg') => (reg', none)
  | .otherMsg => (reg, none)

/-- Processing a sequence of incoming messages in arrival order,
collecting the settlements performed. -/
def processMessages {α β : Type} (reg : IdRegistry α) :
    List (InMsg β) → IdRegistry α × List (SettleEvent α β)
  | [] => (reg, [])
  | m :: ms =>
      let r := processMessage reg m
      let rest := processMessages r.1 ms
      (rest.1, r.2.toList ++ rest.2)

/-- The correlation id named by a message, if any. -/
def replyId {β : Type} : InMsg β → Option Nat
  | .errorMsg id _ => some id
  | .responseMsg id _ => some id
  | .otherMsg => none

/-- The settlement a message ought to perform according to the claim:
pair the envelope's payload with the pending entry that the given
(pre-arrival) registry associates with the envelope's correlation id. -/
def settleSpec {α β : Type} (reg : IdRegistry α) : InMsg β → Option (SettleEvent α β)
  | .errorMsg id e => (lookupId reg.entries id).map (fun p => .rejected p e)
  | .responseMsg id v => (lookupId reg.entries id).map (fun p => .resolved p v)
  | .otherMsg => none

/-- Registering a list of pending calls in order, returning the ids
allocated to them. -/
def registerAll {α : Type} (reg : IdRegistry α) : List α → IdRegistry α × List Nat
  | [] => (reg, [])
  | c :: cs =>
      let r := reg.register c
      let rest := registerAll r.2 cs
      (rest.1, r.1 :: rest.2)

/-! ## Transfer marking over an explicit object store (for the in-place
mutation claim)

`transfer(value)` is `Object.assign(value, { [$TRANSFER]: true })`
(messenger.ts lines 28–30): it writes the `$TRANSFER` own property
directly into its argument and returns the very same reference.  To
state mutation and reference identity, objects live in an explicit store
mapping references to property records. -/

/-- The `$TRANSFER` string constant, `'RPC-TRANSFER'`. -/
def TRANSFER_KEY : String := "RPC-TRANSFER"

/-- A property value on a stored object: a boolean or opaque data. -/
inductive PropVal where
  | pbool : Bool → PropVal
  | pdata : Nat → PropVal
deriving DecidableEq

/-- Property records of stored objects. -/
abbrev ObjProps := List (String × PropVal)

/-- An object store: references to property records. -/
def Store := Nat → ObjProps

/-- Model of property assignment (the single-key `Object.assign`):
overwrite the key if present, append it otherwise. -/
def setProp : ObjProps → String → PropVal → ObjProps
  | [], k, v => [(k, v)]
  | (k', v') :: tl, k, v => if k' = k then (k, v) :: tl else (k', v') :: setProp tl k v

/-- Property lookup on a stored object. -/
def lookupProp : ObjProps → String → Option PropVal
  | [], _ => none
  | (k', v') :: tl, k => if k' = k then some v' else lookupProp tl k

/-- Embedding of `transfer(value)`: write `$TRANSFER: true` into the
object the reference denotes and return the same reference. -/
def transferOp (s : Store) (r : Nat) : Nat × Store :=
  (r, fun r' => if r' = r then setProp (s r) TRANSFER_KEY (.pbool true) else s r')

/-! ## Registry lemmas -/

theorem lookupId_removeId {α : Type} (l : List (Nat × α)) (id id' : Nat) (h : id' ≠ id) :
    lookupId (removeId l id) id' = lookupId l id' := by
  induction l with
  | nil => rfl
  | cons p tl ih =>
    obtain ⟨k, v⟩ := p
    by_cases hk : k = id
    · subst hk
      have hne : ¬ (k = id') := by omega
      simp [removeId, lookupId, ih, hne]
    · by_cases hk' : k = id'
      · subst hk'
        simp [removeId, hk, lookupId]
      · simp [removeId, hk, lookupId, hk', ih]

theorem settleSpec_free {α β : Type} (reg : IdRegistry α) (id : Nat) (m : InMsg β)
    (hne : ∀ i, replyId m = some i → i ≠ id) :
    settleSpec ((reg.free id).2) m = settleSpec reg m := by
  cases m with
  | otherMsg => rfl
  | errorMsg i e =>
      have hi : i ≠ id := hne i rfl
      unfold IdRegistry.free
      cases hl : lookupId reg.entries id with
      | none => rfl
      | some p => simp [settleSpec, lookupId_removeId _ _ _ hi]
  | responseMsg i v =>
      have hi : i ≠ id := hne i rfl
      unfold IdRegistry.free
      cases hl : lookupId reg.entries id with
      | none => rfl
      | some p => simp [settleSpec, lookupId_removeId _ _ _ hi]

/-- C1: for every set of concurrently outstanding calls with distinct
ids held in the requester's pending registry, processing any sequence of
reply envelopes with pairwise distinct correlation ids — in any arrival
order, including the reverse of submission order — settles, for each
envelope, exactly the pending call that the pre-arrival registry
associates with that envelope's correlation id, with exactly that
envelope's payload (for Responses) or error value (for Errors). -/
theorem requester_reply_correlation {α β : Type} (reg : IdRegistry α) (msgs : List (InMsg β))
    (hids : (msgs.filterMap replyId).Nodup) :
    (processMessages reg msgs).2 = msgs.filterMap (settleSpec reg) := by
  induction msgs generalizing reg with
  | nil => rfl
  | cons m ms ih =>
    cases m with
    | otherMsg =>
        have htl : (ms.filterMap replyId).Nodup := by
          simpa [List.filterMap_cons, replyId] using hids
        simp [processMessages, processMessage, List.filterMap_cons, replyId, settleSpec,
          ih reg htl]
    | responseMsg id v =>
        rw [List.filterMap_cons] at hids
        simp only [replyId] at hids
        rw [List.nodup_cons] at hids
        obtain ⟨hnotin, hids'⟩ := hids
        have hcong : ms.filterMap (settleSpec ((reg.free id).2)) =
            ms.filterMap (settleSpec reg) := by
          apply List.filterMap_congr
          intro x hx
          apply settleSpec_free
          intro i hi hie
          subst hie
          exact hnotin (List.mem_filterMap.mpr ⟨x, hx, hi⟩)
        cases hl : lookupId reg.entries id with
        | some p =>
            have hfree : reg.free id = (some p, ⟨reg.nextId, removeId reg.entries id⟩) := by
              simp [IdRegistry.free, hl]
            have hsnd : (reg.free id).2 = ⟨reg.nextId, removeId reg.entries id⟩ := by
              rw [hfree]
            rw [hsnd] at hcong
            simp [processMessages, processMessage, hfree, List.filterMap_cons, settleSpec, hl,
              ih _ hids', hcong]
        | none =>
            have hfree : reg.free id = (none, reg) := by
              simp [IdRegistry.free, hl]
            have hsnd : (reg.free id).2 = reg := by rw [hfree]
            rw [hsnd] at hcong
            simp [processMessages, processMessage, hfree, List.filterMap_cons, settleSpec, hl,
              ih _ hids', hcong]
    | errorMsg id e =>
        rw [List.filterMap_cons] at hids
        simp only [replyId] at hids
        rw [List.nodup_cons] at hids
        obtain ⟨hnotin, hids'⟩ := hids
        have hcong : ms.filterMap (settleSpec ((reg.free id).2)) =
            ms.filterMap (settleSpec reg) := by
          apply List.filterMap_congr
          intro x hx
          apply settleSpec_free
          intro i hi hie
          subst hie
          exact hnotin (List.mem_filterMap.mpr ⟨x, hx, hi⟩)
        cases hl : lookupId reg.entries id with
        | some p =>
            have hfree : reg.free id = (some p, ⟨reg.nextId, removeId reg.entries id⟩) := by
              simp [IdRegistry.free, hl]
            have hsnd : (reg.free id).2 = ⟨reg.nextId, removeId reg.entries id⟩ := by
              rw [hfree]
            rw [hsnd] at hcong
            simp [processMessages, processMessage, hfree, List.filterMap_cons, settleSpec, hl,
              ih _ hids', hcong]
        | none =>
            have hfree : reg.free id = (none, reg) := by
              simp [IdRegistry.free, hl]
            have hsnd : (reg.free id).2 = reg := by rw [hfree]
            rw [hsnd] at hcong
            simp [processMessages, processMessage, hfree, List.filterMap_cons, settleSpec, hl,
              ih _ hids', hcong]

/-- Witness for the correlation theorem: three calls registered in order
receive ids 0, 1, 2; their replies arrive in reverse submission order
and each call settles with exactly the payload correlated to its id. -/
theorem requester_reply_correlation_witness :
    ((([InMsg.responseMsg 2 30, InMsg.responseMsg 1 20, InMsg.errorMsg 0 10] :
        List (InMsg Nat)).filterMap replyId).Nodup) ∧
    (processMessages (registerAll (IdRegistry.empty : IdRegistry String) ["a", "b", "c"]).1
        [InMsg.responseMsg 2 30, InMsg.responseMsg 1 20, InMsg.errorMsg 0 10]).2 =
      [SettleEvent.resolved "c" 30, SettleEvent.resolved "b" 20,
        SettleEvent.rejected "a" 10] := by
  refine ⟨by decide, ?_⟩
  rw [requester_reply_correlation _ _ (by decide)]
  decide

/-- C7: processing a Response or Error envelope whose correlation id is
not registered in the pending-call registry is a no-op — the listener's
`free(id)` signals absence, the optional chain settles nothing, no
exception is raised (the handler is total), and the registry is left
unchanged. -/
theorem unknown_id_reply_noop {α β : Type} (reg : IdRegistry α) (id : Nat) (v e : β)
    (h : lookupId reg.entries id = none) :
    processMessage reg (InMsg.responseMsg id v) = (reg, none) ∧
    processMessage reg (InMsg.errorMsg id e) = (reg, none) := by
  constructor <;> simp [processMessage, IdRegistry.free, h]

/-- Witness: a registry holding only id 0 ignores replies to id 5. -/
theorem unknown_id_reply_noop_witness :
    lookupId (⟨1, [(0, "a")]⟩ : IdRegistry String).entries 5 = none ∧
    processMessage (⟨1, [(0, "a")]⟩ : IdRegistry String) (InMsg.responseMsg 5 (7 : Nat)) =
      (⟨1, [(0, "a")]⟩, none) ∧
    processMessage (⟨1, [(0, "a")]⟩ : IdRegistry String) (InMsg.errorMsg 5 (9 : Nat)) =
      (⟨1, [(0, "a")]⟩, none) := by
  have h := unknown_id_reply_noop (⟨1, [(0, "a")]⟩ : IdRegistry String) 5 (7 : Nat) (9 : Nat)
    (by decide)
  exact ⟨by decide, h.1, h.2⟩

/-- C10: an incoming message that validates as a Request but whose
payload does not validate as an RPC-call payload makes both the
messenger and the websocket exposing endpoints send nothing back —
neither a Response nor an Error envelope — and leaves their state
unchanged, so the requester's pending call for that id can never be
settled by a reply to it. -/
theorem invalid_payload_answered_with_nothing (methods : Value) (st : ExposeState) (id : Nat)
    (v : Value) :
    exposeHandle methods st id (.raw v) = (st, none) ∧
    wsExposeHandle methods st id (.raw v) = (st, none) := by
  exact ⟨rfl, rfl⟩

/-! ## Claims about `callMethod` -/

/-- Embedding of the guard `typeof method === 'function'`. -/
def isVFun : Value → Bool
  | .vfun _ => true
  | _ => false

/-- Concrete input refuting the parent-binding claim: the root object
carries `x: 2` and a nested container `a` carrying `x: 1` and a method
`f` that is `function () { return this.x }`. -/
def exC4 : Value :=
  .vobj false (.fcons "x" (.vnum 2)
    (.fcons "a" (.vobj false (.fcons "x" (.vnum 1)
      (.fcons "f" (.vfun (.retThisProp "x")) .fnil))) .fnil))

/-- C4 counterexample: for the length-two path `["a", "f"]`, whose
function returns `this.x`, `callMethod` yields `2` — the root object's
`x` — because `method.call(methods, ...args)` binds `this` to the root
`methods` object, while binding to the immediate parent container `a`
(as the claim states) would yield `1`. -/
theorem callMethod_parent_binding_counterexample :
    callMethod exC4 ["a", "f"] .nil = .sync (.vnum 2) ∧
    callMethodParentBoundSpec exC4 ["a", "f"] .nil = .sync (.vnum 1) ∧
    callMethod exC4 ["a", "f"] .nil ≠ callMethodParentBoundSpec exC4 ["a", "f"] .nil := by
  refine ⟨by decide, by decide, by decide⟩

/-- C4 (amended): for every topic path resolving to a function,
`callMethod` invokes it with `this` bound to the root methods object it
was given (the dispatch root — for namespace-scoped calls the referenced
handler object), not the immediate parent container, with the call's
argument list applied positionally; in particular a body returning
`this.k` observes the root's `k` property. -/
theorem callMethod_binds_root (methods : Value) (topics : List String) (args : ValueList)
    (b : FnBody) (h : resolveTopics methods topics = .vfun b) :
    callMethod methods topics args = evalFn b methods args ∧
    (∀ k, b = .retThisProp k → callMethod methods topics args = .sync (getProp methods k)) := by
  constructor
  · simp [callMethod, h]
  · intro k hk
    subst hk
    simp [callMethod, h, evalFn]

/-- Witness for the amended binding theorem at the concrete input of the
counterexample: the resolved body reads `this.x` and observes the root's
`x = 2`. -/
theorem callMethod_binds_root_witness :
    resolveTopics exC4 ["a", "f"] = .vfun (.retThisProp "x") ∧
    callMethod exC4 ["a", "f"] .nil = evalFn (.retThisProp "x") exC4 .nil ∧
    callMethod exC4 ["a", "f"] .nil = .sync (getProp exC4 "x") := by
  have h := callMethod_binds_root exC4 ["a", "f"] .nil (.retThisProp "x") (by decide)
  exact ⟨by decide, h.1, h.2 "x" rfl⟩

/-- C8: a topic path resolving through nested containers to a function
is invoked with the call's argument list in order (a body returning its
argument array returns exactly `args`); a path resolving to a
non-function produces the unresolvable-topic-path error, whose message
names the offending path, instead of invoking anything. -/
theorem callMethod_resolution (methods : Value) (topics : List String) (args : ValueList) :
    (∀ b, resolveTopics methods topics = .vfun b →
        (callMethod methods topics args = evalFn b methods args ∧
          (b = .retArgsArr → callMethod methods topics args = .sync (.varr false args)))) ∧
    (isVFun (resolveTopics methods topics) = false →
        callMethod methods topics args =
          .exn (.verr ("Topics did not resolve to a function: [" ++ joinComma topics ++ "]"))) := by
  constructor
  · intro b hb
    constructor
    · simp [callMethod, hb]
    · intro hba
      subst hba
      simp [callMethod, hb, evalFn]
  · intro hf
    cases hres : resolveTopics methods topics
    case vfun b =>
      rw [hres] at hf
      simp [isVFun] at hf
    all_goals simp [callMethod, hres]

/-- Nested containers for the resolution witness: `a.b.c` is a function
returning its argument array. -/
def exC8 : Value :=
  .vobj false (.fcons "a" (.vobj false (.fcons "b" (.vobj false
    (.fcons "c" (.vfun .retArgsArr) .fnil)) .fnil)) .fnil)

/-- Witness for the resolution theorem: the nested path
`["a", "b", "c"]` reaches a function returning its argument array and
receives the two arguments in order; the path `["a", "nope"]` resolves
to `undefined` and is answered with the error naming `a,nope`. -/
theorem callMethod_resolution_witness :
    callMethod exC8 ["a", "b", "c"] (.cons (.vnum 1) (.cons (.vnum 2) .nil)) =
      .sync (.varr false (.cons (.vnum 1) (.cons (.vnum 2) .nil))) ∧
    callMethod exC8 ["a", "nope"] .nil =
      .exn (.verr "Topics did not resolve to a function: [a,nope]") := by
  constructor
  · exact ((callMethod_resolution exC8 ["a", "b", "c"]
      (.cons (.vnum 1) (.cons (.vnum 2) .nil))).1 .retArgsArr (by decide)).2 rfl
  · have h := (callMethod_resolution exC8 ["a", "nope"] .nil).2 (by decide)
    rw [h]
    decide

/-! ## Extractor lemmas -/

/-- A value carrying the transfer mark is collected and returned in
place, without recursing into it. -/
theorem processValue_marked (v : Value) (h : isTransferredVal v = true) :
    processValue v = (v, [v]) := by
  cases v <;> simp [isTransferredVal] at h <;> subst h <;> rfl

mutual

theorem processValue_fst : ∀ (v : Value), markerFree v = true → (processValue v).1 = v
  | .vundef, _ => rfl
  | .vnull, _ => rfl
  | .vbool _, _ => rfl
  | .vnum _, _ => rfl
  | .vstr _, _ => rfl
  | .vfun _, _ => rfl
  | .vhandleResponse _, _ => rfl
  | .verr _, _ => rfl
  | .vother true _, _ => rfl
  | .vother false _, _ => rfl
  | .varr true _, _ => rfl
  | .vobj true _, _ => rfl
  | .varr false es, h => by
      simp [processValue, processElems_fst es (by simpa [markerFree] using h)]
  | .vobj false fs, h => by
      simp [processValue, processFields_fst fs (by simpa [markerFree] using h)]
  | .vhandleMarker _, h => by simp [markerFree] at h

theorem processElems_fst : ∀ (es : ValueList), markerFreeElems es = true →
    (processElems es).1 = es
  | .nil, _ => rfl
  | .cons v tl, h => by
      have hv : markerFree v = true := by
        simp [markerFreeElems] at h
        exact h.1
      have htl : markerFreeElems tl = true := by
        simp [markerFreeElems] at h
        exact h.2
      simp [processElems, processValue_fst v hv, processElems_fst tl htl]

theorem processFields_fst : ∀ (fs : FieldList), markerFreeFields fs = true →
    (processFields fs).1 = fs
  | .fnil, _ => rfl
  | .fcons k v tl, h => by
      have hv : markerFree v = true := by
        simp [markerFreeFields] at h
        exact h.1
      have htl : markerFreeFields tl = true := by
        simp [markerFreeFields] at h
        exact h.2
      simp [processFields, processValue_fst v hv, processFields_fst tl htl]

end

mutual

theorem processValue_noMarks : ∀ (v : Value), noMarks v = true → (processValue v).2 = []
  | .vundef, _ => rfl
  | .vnull, _ => rfl
  | .vbool _, _ => rfl
  | .vnum _, _ => rfl
  | .vstr _, _ => rfl
  | .vfun _, _ => rfl
  | .vhandleResponse _, _ => rfl
  | .verr _, _ => rfl
  | .vother true _, h => by simp [noMarks] at h
  | .vother false _, _ => rfl
  | .varr true _, h => by simp [noMarks] at h
  | .vobj true _, h => by simp [noMarks] at h
  | .varr false es, h => by
      simp [processValue, processElems_noMarks es (by simpa [noMarks] using h)]
  | .vobj false fs, h => by
      simp [processValue, processFields_noMarks fs (by simpa [noMarks] using h)]
  | .vhandleMarker m, h => by
      simp [processValue, processValue_noMarks m (by simpa [noMarks] using h)]

theorem processElems_noMarks : ∀ (es : ValueList), noMarksElems es = true →
    (processElems es).2 = []
  | .nil, _ => rfl
  | .cons v tl, h => by
      have hv : noMarks v = true := by
        simp [noMarksElems] at h
        exact h.1
      have htl : noMarksElems tl = true := by
        simp [noMarksElems] at h
        exact h.2
      simp [processElems, processValue_noMarks v hv, processElems_noMarks tl htl]

theorem processFields_noMarks : ∀ (fs : FieldList), noMarksFields fs = true →
    (processFields fs).2 = []
  | .fnil, _ => rfl
  | .fcons k v tl, h => by
      have hv : noMarks v = true := by
        simp [noMarksFields] at h
        exact h.1
      have htl : noMarksFields tl = true := by
        simp [noMarksFields] at h
        exact h.2
      simp [processFields, processValue_noMarks v hv, processFields_noMarks tl htl]

end

/-- The spec's extraction example, parameterised by the two marked
values: `{ buf: transferMarked(x), list: [transferMarked(y), 3] }`. -/
def exC5 (x y : Value) : Value :=
  .vobj false (.fcons "buf" x
    (.fcons "list" (.varr false (.cons y (.cons (.vnum 3) .nil))) .fnil))

/-- C5: extracting from `{buf: transferMarked(x), list: [transferMarked(y), 3]}`
returns an args tree of identical shape with `x` and `y` left in place
and the transferables list `[x, y]` in traversal order; extracting from
a marker-free value with no marks returns the structurally equal tree
and an empty transferables list; and on every marker-free input the
extractor rebuilds a structurally equal tree (arrays element-wise, plain
records field-wise, everything else passed through) rather than mutating
its input.  (Handle markers are excluded: they are never constructible
by a caller, and their `Symbol` key would be dropped by the field-wise
rebuild.) -/
theorem extract_transferables_behaviour :
    (∀ x y : Value, isTransferredVal x = true → isTransferredVal y = true →
        extractTransferables (.cons (exC5 x y) .nil) = (.cons (exC5 x y) .nil, [x, y])) ∧
    (∀ v : Value, markerFree v = true → noMarks v = true → processValue v = (v, [])) ∧
    (∀ v : Value, markerFree v = true → (processValue v).1 = v) := by
  refine ⟨?_, ?_, ?_⟩
  · intro x y hx hy
    simp [extractTransferables, processElems, exC5, processValue, processFields,
      processValue_marked x hx, processValue_marked y hy]
  · intro v hm hn
    have h1 := processValue_fst v hm
    have h2 := processValue_noMarks v hn
    cases hpv : processValue v with
    | mk a b =>
        rw [hpv] at h1 h2
        simp only at h1 h2
        rw [h1, h2]
  · exact processValue_fst

/-- Witness: a marked plain object and a marked array are collected in
order and left in place; a mark-free object extracts to itself with no
transferables. -/
theorem extract_transferables_behaviour_witness :
    extractTransferables (.cons (exC5 (.vobj true (.fcons "p" (.vnum 7) .fnil))
        (.varr true (.cons (.vnum 8) .nil))) .nil) =
      (.cons (exC5 (.vobj true (.fcons "p" (.vnum 7) .fnil))
        (.varr true (.cons (.vnum 8) .nil))) .nil,
        [.vobj true (.fcons "p" (.vnum 7) .fnil), .varr true (.cons (.vnum 8) .nil)]) ∧
    processValue (.vobj false (.fcons "k" (.vnum 5) .fnil)) =
      (.vobj false (.fcons "k" (.vnum 5) .fnil), []) := by
  exact ⟨extract_transferables_behaviour.1 _ _ (by decide) (by decide),
    extract_transferables_behaviour.2.1 _ (by decide) (by decide)⟩

/-! ## The handle round trip (C3) -/

/-- The wrapped object of the claim's example: `{ getValue: () => 42 }`. -/
def innerC3 : Value := .vobj false (.fcons "getValue" (.vfun (.ret (.vnum 42))) .fnil)

/-- Root methods whose `make` returns `handle({ getValue: () => 42 })`. -/
def methodsC3 : Value := .vobj false (.fcons "make" (.vfun (.ret (.vhandleMarker innerC3))) .fnil)

/-- C3: an exposed method returning a handle marker wrapping
`{getValue: () => 42}` is answered with a Response whose payload is the
remote-handle payload carrying the namespace id freshly minted from the
module counter (which is incremented and under which the wrapped object
is registered); a subsequent request with topic path
`[namespaceId, "getValue"]` and empty args is answered with a Response
whose payload is `42`. -/
theorem handle_round_trip (st : ExposeState) (id₁ id₂ : Nat) :
    exposeHandle methodsC3 st id₁ (.rpc ["make"] .nil) =
      (⟨st.counter + 1, (HANDLE_NAMESPACE_PREF ++ natToString st.counter, innerC3) ::
          st.handlers⟩,
        some (.response id₁ (.vhandleResponse
          (HANDLE_NAMESPACE_PREF ++ natToString st.counter)))) ∧
    exposeHandle methodsC3
        ⟨st.counter + 1, (HANDLE_NAMESPACE_PREF ++ natToString st.counter, innerC3) ::
          st.handlers⟩
        id₂ (.rpc [HANDLE_NAMESPACE_PREF ++ natToString st.counter, "getValue"] .nil) =
      (⟨st.counter + 1, (HANDLE_NAMESPACE_PREF ++ natToString st.counter, innerC3) ::
          st.handlers⟩,
        some (.response id₂ (.vnum 42))) := by
  constructor
  · have hsw : strStartsWith "make" HANDLE_NAMESPACE_PREF = false := by decide
    have hcall : callMethod methodsC3 ["make"] .nil = .sync (.vhandleMarker innerC3) := by
      decide
    simp [exposeHandle, dispatchCall, hsw, hcall, processResultMessenger,
      messengerMintNamespaceId, processValue]
  · have hsw : strStartsWith (HANDLE_NAMESPACE_PREF ++ natToString st.counter)
        HANDLE_NAMESPACE_PREF = true := strStartsWith_append _ _
    have hcall : callMethod innerC3 ["getValue"] .nil = .sync (.vnum 42) := by decide
    simp [exposeHandle, dispatchCall, hsw, lookupHandler, hcall, processResultMessenger,
      processValue]

/-! ## Namespace id uniqueness (C6) -/

/-- C6 counterexample: the repository holds two independent module-wide
namespace counters — messenger.ts's private one and handle.ts's shared
one — both composing ids with the same `'__rpc_handle_'` prefix.  A
first handle registration on a messenger endpoint and a first handle
registration on a websocket endpoint (handle.ts's counter) both mint the
namespace id `"__rpc_handle_0"`, so two registrations on different
endpoints of the same process can receive the same namespaceId, refuting
the single-process-wide-counter claim. -/
theorem namespace_id_not_process_unique_counterexample :
    (exposeHandle methodsC3 ⟨messengerCounterInit, []⟩ 1 (.rpc ["make"] .nil)).2 =
      some (.response 1 (.vhandleResponse "__rpc_handle_0")) ∧
    (wsExposeHandle methodsC3 ⟨handleCounterInit, []⟩ 1 (.rpc ["make"] .nil)).2 =
      some (.response 1 (.vhandleResponse "__rpc_handle_0")) ∧
    (messengerMintNamespaceId messengerCounterInit).1 =
      (nextHandleNamespaceId handleCounterInit).1 := by
  exact ⟨by decide, by decide, rfl⟩

theorem mint_id_injective (c₁ c₂ : Nat) (h : c₁ ≠ c₂) :
    HANDLE_NAMESPACE_PREF ++ natToString c₁ ≠ HANDLE_NAMESPACE_PREF ++ natToString c₂ := by
  intro he
  apply h
  apply natToString_injective
  have hdata := congrArg String.data he
  rw [String.data_append, String.data_append] at hdata
  exact String.ext (List.append_cancel_left hdata)

/-- C6 (amended): each namespace-id generator is module-wide, not
process-wide — handle.ts's counter is shared by the websocket transport
and core.ts, while messenger.ts keeps its own counter with the same
prefix, so endpoints served by different modules can mint colliding ids.
Within one generator the claim's uniqueness does hold: the counter only
increments and never recycles, so mints at distinct counter values
always produce distinct namespace ids. -/
theorem namespace_id_unique_per_generator (c₁ c₂ : Nat) (h : c₁ ≠ c₂) :
    (nextHandleNamespaceId c₁).1 ≠ (nextHandleNamespaceId c₂).1 ∧
    (nextHandleNamespaceId c₁).2 = c₁ + 1 ∧
    (messengerMintNamespaceId c₁).1 ≠ (messengerMintNamespaceId c₂).1 ∧
    (messengerMintNamespaceId c₁).2 = c₁ + 1 := by
  exact ⟨mint_id_injective c₁ c₂ h, rfl, mint_id_injective c₁ c₂ h, rfl⟩

/-- Witness: the first two mints of one generator yield distinct ids. -/
theorem namespace_id_unique_per_generator_witness :
    (0 : Nat) ≠ 1 ∧
    (nextHandleNamespaceId 0).1 ≠ (nextHandleNamespaceId 1).1 ∧
    (messengerMintNamespaceId 0).1 ≠ (messengerMintNamespaceId 1).1 := by
  have h := namespace_id_unique_per_generator 0 1 (by decide)
  exact ⟨by decide, h.1, h.2.2.1⟩

/-! ## Dispatch-boundary failure semantics (C2) -/

/-- Exposed methods with a synchronously throwing `fail`. -/
def failMethodsC2 : Value := .vobj false (.fcons "fail" (.vfun (.throwV (.verr "boom"))) .fnil)

/-- Exposed methods whose `fail` returns a rejecting promise. -/
def asyncFailMethodsC2 : Value :=
  .vobj false (.fcons "fail" (.vfun (.retPromise true (.verr "boom"))) .fnil)

/-- C2, evaluated at the failing input: part_000's `expose` catches a
synchronous throw from the resolved callable inside its own callback
(logging it), so `createResponder` awaits `undefined` and posts a
Response envelope with an `undefined` payload instead of the Error
envelope the claim requires; only an asynchronous rejection reaches
`createResponder`'s catch and yields the Error envelope.  The
messenger.ts and websocket `expose` handlers answer the same synchronous
throw with the Error envelope carrying the original id and the raw error
value, as the claim states. -/
theorem part000_sync_throw_answered_with_response (st : ExposeState) :
    part000ExposeHandle failMethodsC2 1 (.rpc ["fail"] .nil) = .response 1 .vundef ∧
    part000ExposeHandle asyncFailMethodsC2 1 (.rpc ["fail"] .nil) =
      .error 1 (.verr "boom") ∧
    exposeHandle failMethodsC2 st 1 (.rpc ["fail"] .nil) =
      (st, some (.error 1 (.verr "boom"))) ∧
    wsExposeHandle failMethodsC2 st 1 (.rpc ["fail"] .nil) =
      (st, some (.error 1 (.verr "boom"))) := by
  have hsw : strStartsWith "fail" HANDLE_NAMESPACE_PREF = false := by decide
  have hcall : callMethod failMethodsC2 ["fail"] .nil = .exn (.verr "boom") := by decide
  refine ⟨by decide, by decide, ?_, ?_⟩
  · simp [exposeHandle, dispatchCall, hsw, hcall]
  · simp [wsExposeHandle, dispatchCall, hsw, hcall]

/-! ## In-place transfer marking (C9) -/

theorem lookupProp_setProp_same (ps : ObjProps) (k : String) (v : PropVal) :
    lookupProp (setProp ps k v) k = some v := by
  induction ps with
  | nil => simp [setProp, lookupProp]
  | cons p tl ih =>
    obtain ⟨k', v'⟩ := p
    by_cases hk : k' = k
    · simp [setProp, hk, lookupProp]
    · simp [setProp, hk, lookupProp, ih]

theorem lookupProp_setProp_other (ps : ObjProps) (k k' : String) (v : PropVal)
    (h : k' ≠ k) : lookupProp (setProp ps k v) k' = lookupProp ps k' := by
  induction ps with
  | nil => simp [setProp, lookupProp, Ne.symm h]
  | cons p tl ih =>
    obtain ⟨k₀, v₀⟩ := p
    by_cases hk : k₀ = k
    · subst hk
      simp [setProp, lookupProp, Ne.symm h]
    · by_cases hk' : k₀ = k'
      · subst hk'
        simp [setProp, hk, lookupProp]
      · simp [setProp, hk, lookupProp, hk', ih]

/-- C9: `transfer(value)` (`Object.assign(value, {[$TRANSFER]: true})`)
mutates its argument in place over the explicit object store: it returns
the very same object reference; the object now carries the `$TRANSFER`
own property set to `true`; all its other properties are unchanged; and
every other object in the store is untouched.  (The extractor, by
contrast, rebuilds a fresh tree.) -/
theorem transfer_marks_in_place (s : Store) (r : Nat) :
    (transferOp s r).1 = r ∧
    lookupProp ((transferOp s r).2 r) TRANSFER_KEY = some (.pbool true) ∧
    (∀ k, k ≠ TRANSFER_KEY → lookupProp ((transferOp s r).2 r) k = lookupProp (s r) k) ∧
    (∀ r', r' ≠ r → (transferOp s r).2 r' = s r') := by
  refine ⟨rfl, ?_, ?_, ?_⟩
  · simp [transferOp, lookupProp_setProp_same]
  · intro k hk
    simp [transferOp, lookupProp_setProp_other _ _ _ _ hk]
  · intro r' hr
    simp [transferOp, hr]

/-- A concrete two-object store: object 0 has a `p` property, object 1
has a `q` property, all other references are empty. -/
def exStoreC9 : Store := fun r =>
  if r = 0 then [("p", .pdata 5)] else if r = 1 then [("q", .pdata 6)] else []

/-- Witness on a two-object store: marking object 0 returns reference 0,
sets its `$TRANSFER` property, preserves its `p` property and leaves
object 1 untouched. -/
theorem transfer_marks_in_place_witness :
    (transferOp exStoreC9 0).1 = 0 ∧
    lookupProp ((transferOp exStoreC9 0).2 0) TRANSFER_KEY = some (.pbool true) ∧
    lookupProp ((transferOp exStoreC9 0).2 0) "p" = lookupProp (exStoreC9 0) "p" ∧
    (transferOp exStoreC9 0).2 1 = exStoreC9 1 := by
  have h := transfer_marks_in_place exStoreC9 0
  exact ⟨h.1, h.2.1, h.2.2.1 "p" (by decide), h.2.2.2 1 (by decide)⟩
